import Mathlib

/-!
Verification development for the redox-ci-status dashboard.

The embedding mirrors the two source modules:
* the application module (`app`): configuration constants, the GitLab
  fetcher `fetchGitLabData`, the artifact fetcher `fetchArtifactStatus`,
  and the HTTP handler with its in-memory cache;
* the view module (`view`): the per-package reconciliation classification
  computed inside `generateHtml` (the css class `latest` / `pending` /
  `outdated` attached to each package item).

Network effects are made explicit: every remote call is parameterised by an
oracle describing what the call would return, so each `async` source function
becomes a pure Lean function of its oracle.  Times are modelled as integer
milliseconds (JavaScript `Date.now()` values); JS float division by 3600000
in the staleness check is modelled exactly over `ℚ` (for the integer inputs
involved, double rounding can never flip the comparison against the integer
threshold, since attainable quotients are far more than one ulp away from it).
-/

/-! ## Configuration constants (app module) -/

/-- `CACHE_DURATION_MS = 1 * 60 * 60 * 1000` (one hour), the cache TTL. -/
def CACHE_DURATION_MS : Int := 1 * 60 * 60 * 1000

/-- `ARTIFACT_STALE_HOURS = 24`, the staleness threshold in hours. -/
def ARTIFACT_STALE_HOURS : Int := 24

/-- One hour in milliseconds, written `1000 * 60 * 60` in the source. -/
def MS_PER_HOUR : Int := 1000 * 60 * 60

/-- Base URL of the package artifact directory. -/
def ARTIFACT_PKG_URL : String := "https://static.redox-os.org/pkg/"

/-- Base URL of the image artifact directory. -/
def ARTIFACT_IMG_URL : String := "https://static.redox-os.org/img/"

/-- One entry of the hardcoded `PROJECTS_TO_TRACK` configuration list. -/
structure TrackedProject where
  path : String
  branch : String
  pkg : List String
deriving Repr, DecidableEq

/-- The hardcoded list of tracked GitLab projects, in source order. -/
def PROJECTS_TO_TRACK : List TrackedProject := [
  ⟨"redox-os/redox", "master", []⟩,
  ⟨"redox-os/relibc", "master", ["relibc"]⟩,
  ⟨"redox-os/base", "main", ["base", "base-initfs"]⟩,
  ⟨"redox-os/bootloader", "master", ["bootloader"]⟩,
  ⟨"redox-os/kernel", "master", ["kernel"]⟩,
  ⟨"redox-os/redoxfs", "master", ["redoxfs"]⟩,
  ⟨"redox-os/acid", "master", ["acid"]⟩,
  ⟨"redox-os/coreutils", "master", ["coreutils"]⟩,
  ⟨"redox-os/extrautils", "master", ["extrautils"]⟩,
  ⟨"redox-os/installer", "master", []⟩,
  ⟨"redox-os/orbital", "master", ["orbital"]⟩,
  ⟨"redox-os/orbutils", "master", ["orbutils"]⟩,
  ⟨"redox-os/pkgutils", "master", ["pkgutils"]⟩,
  ⟨"redox-os/redoxer", "master", []⟩,
  ⟨"redox-os/book", "master", []⟩,
  ⟨"redox-os/website", "master", []⟩]

/-- The hardcoded list of tracked artifact platforms (`ARTIFACTS_TO_TRACK`). -/
def ARTIFACTS_TO_TRACK : List String := ["x86_64", "aarch64", "i586", "riscv64gc"]

/-! ## Data model (app module interfaces) -/

/-- The commit object built from the latest-commit API response
(`id`, `title`, `author_name`, `created_at`). -/
structure Commit where
  id : String
  message : String
  author : String
  date : String
deriving Repr, DecidableEq

/-- The fields read off the project-lookup API response. -/
structure ProjectMeta where
  id : String
  name_with_namespace : String
  web_url : String
deriving Repr, DecidableEq

/-- The fields read off the latest-pipeline API response. -/
structure Pipeline where
  status : String
  web_url : String
deriving Repr, DecidableEq

/-- `ProjectInfo`: the per-repository record produced by `fetchGitLabData`.
`pipelineUrl` is `latestPipeline?.web_url`, hence absent when no pipeline
exists; `commit` is null when no commit exists. -/
structure ProjectInfo where
  id : String
  name : String
  path : String
  url : String
  status : String
  pipelineUrl : Option String
  commit : Option Commit
deriving Repr, DecidableEq

/-- Outcome of the per-project block of `fetchGitLabData` for one path:
`failure` covers a non-OK project lookup as well as any thrown error
(network or parse), all of which are caught and turned into `null`;
`success` carries the three API responses (pipeline and commit lists may
be empty, giving `none`). -/
inductive ProjectFetchResult where
  | failure
  | success (meta : ProjectMeta) (pipeline : Option Pipeline) (commit : Option Commit)
deriving Repr, DecidableEq

/-- The body of the `PROJECTS_TO_TRACK.map` callback in `fetchGitLabData`:
either `null` (modelled `none`) on failure, or the assembled `ProjectInfo`.
`latestPipeline?.status || 'no-pipelines'` is JS truthiness: an absent
pipeline or an empty status string both give `"no-pipelines"`. -/
def fetchProject (o : String → ProjectFetchResult) (t : TrackedProject) : Option ProjectInfo :=
  match o t.path with
  | ProjectFetchResult.failure => none
  | ProjectFetchResult.success meta pl cm =>
      some {
        id := meta.id
        name := meta.name_with_namespace
        path := t.path
        url := meta.web_url
        status :=
          match pl with
          | none => "no-pipelines"
          | some p => if p.status = "" then "no-pipelines" else p.status
        pipelineUrl := pl.map (fun p => p.web_url)
        commit := cm }

/-- `fetchGitLabData`: map the per-project fetch over `PROJECTS_TO_TRACK`
and filter out the `null` results (`results.filter(p => p !== null)`). -/
def fetchGitLabData (o : String → ProjectFetchResult) : List ProjectInfo :=
  PROJECTS_TO_TRACK.filterMap (fetchProject o)

/-- Whether the per-project block for `t` succeeds under oracle `o`. -/
def resolves (o : String → ProjectFetchResult) (t : TrackedProject) : Bool :=
  match o t.path with
  | ProjectFetchResult.failure => false
  | ProjectFetchResult.success _ _ _ => true

/-! ## Artifact data model -/

/-- One row extracted from the Apache autoindex listing by the source regex:
the entry name (the `href`) and its last-modified timestamp, already parsed
to epoch milliseconds (`new Date(dateString).getTime()`). -/
structure IndexRow where
  name : String
  time : Int
deriving Repr, DecidableEq

/-- JS `name.startsWith(tok)`: a literal (non-regex) prefix test on the
character sequence. -/
def startsWithLit (name tok : String) : Bool :=
  tok.data.isPrefixOf name.data

/-- The row-selection loop of `fetchArtifactStatus`: scan matches in document
order, skip rows whose name does not start with the platform token, and stop
at the first row that does (`continue` / `break`). -/
def findRow (rows : List IndexRow) (tok : String) : Option IndexRow :=
  rows.find? (fun r => startsWithLit r.name tok)

/-- `hoursDiff = (Date.now() - lastModifiedDate.getTime()) / (1000 * 60 * 60)`,
modelled exactly over the rationals. -/
def hoursDiff (now t : Int) : ℚ :=
  ((now - t : Int) : ℚ) / ((1000 : ℚ) * 60 * 60)

/-- `hoursDiff > ARTIFACT_STALE_HOURS`: the staleness test applied to an
index row. -/
def isStale (now t : Int) : Bool :=
  decide (hoursDiff now t > ((ARTIFACT_STALE_HOURS : Int) : ℚ))

/-- The per-package descriptor parsed from `<name>.toml`.  `time_identifier`
is a date string in the source; here it carries its parsed epoch-millisecond
value, with `none` standing for an empty or unparseable string (either of
which makes the JS pending test `x.toml?.time_identifier && (... < ...)`
fail, the latter because an invalid date yields `NaN`). -/
structure PackageToml where
  source_identifier : String
  commit_identifier : String
  time_identifier : Option Int
deriving Repr, DecidableEq

/-- The repository-level descriptor as parsed from `repo.toml`, before the
source's defaulting step: either top-level table may be missing. -/
structure ParsedRepoToml where
  packages : Option (List (String × String))
  outdated_packages : Option (List (String × PackageToml))
deriving Repr, DecidableEq

/-- The repository-level descriptor after defaulting
(`arti.repository.packages || {}`, `arti.repository.outdated_packages || {}`). -/
structure RepoToml where
  packages : List (String × String)
  outdated_packages : List (String × PackageToml)
deriving Repr, DecidableEq

/-- One element of `corePkgs`: a tracked package name together with its
project path, branch, and the matching `ProjectInfo` found in the GitLab
results (`gitlab.find(g => g.path == x.path)`, possibly absent). -/
structure CorePkg where
  name : String
  path : String
  branch : String
  project : Option ProjectInfo
deriving Repr, DecidableEq

/-- `corePkgs`: flatten the per-project package lists of `PROJECTS_TO_TRACK`,
pairing each package with the project's fetched `ProjectInfo` if any. -/
def corePkgs (gitlab : List ProjectInfo) : List CorePkg :=
  PROJECTS_TO_TRACK.flatMap (fun x =>
    x.pkg.map (fun y =>
      ⟨y, x.path, x.branch, gitlab.find? (fun g => g.path == x.path)⟩))

/-- One element of `arti.packages` in the source. -/
structure PkgEntry where
  name : String
  branch : String
  project : Option ProjectInfo
  toml_path : String
  toml : Option PackageToml
deriving Repr, DecidableEq

/-- The body of the `corePkgs.map` callback: build the descriptor URL,
attempt the download-and-parse (the surrounding `try { } catch { }` turns
any failure into a `null` descriptor), and always return an entry. -/
def fetchPkgEntry (po : String → Option PackageToml) (pkgUrl : String)
    (pkg : CorePkg) : PkgEntry :=
  { name := pkg.name
    branch := pkg.branch
    project := pkg.project
    toml_path := pkgUrl ++ pkg.name ++ ".toml"
    toml := po (pkgUrl ++ pkg.name ++ ".toml") }

/-- `ArtifactInfo`, built up as a `Partial` in the source: every field other
than `name` starts out unset and is only assigned on the corresponding code
path, hence the `Option` types. -/
structure ArtifactInfo where
  name : String
  pkgUrl : Option String
  pkgLastModified : Option Int
  pkgIsStale : Option Bool
  imgUrl : Option String
  imgLastModified : Option Int
  imgIsStale : Option Bool
  packages : Option (List PkgEntry)
  repositoryPath : Option String
  repository : Option RepoToml
deriving Repr, DecidableEq

/-- Network oracle for `fetchArtifactStatus`: the two directory-listing
downloads (already run through the row-extraction regex), the
`repo.toml` download-and-parse, and the per-package descriptor
download-and-parse (whose failures are swallowed, hence `Option`). -/
structure ArtifactOracle where
  pkgIndex : Except String (List IndexRow)
  imgIndex : Except String (List IndexRow)
  repoToml : String → Except String ParsedRepoToml
  pkgToml : String → Option PackageToml

/-- `Promise.all` over fallible per-platform computations: the first
rejection wins, otherwise all results are collected in order. -/
def exceptMapList (f : α → Except ε β) : List α → Except ε (List β)
  | [] => Except.ok []
  | a :: l =>
    match f a with
    | Except.error e => Except.error e
    | Except.ok b =>
      match exceptMapList f l with
      | Except.error e => Except.error e
      | Except.ok bs => Except.ok (b :: bs)

/-- The body of the `ARTIFACTS_TO_TRACK.map` callback: select the first
matching row of each listing, fill in the corresponding fields, and — only
when a package row was found — fetch `repo.toml` (whose failure rejects the
platform's promise) and all package descriptors. -/
def buildArch (o : ArtifactOracle) (now : Int) (cps : List CorePkg)
    (pkgRows imgRows : List IndexRow) (arch : String) : Except String ArtifactInfo :=
  let base : ArtifactInfo :=
    ⟨arch, none, none, none, none, none, none, none, none, none⟩
  let a1 :=
    match findRow pkgRows arch with
    | none => base
    | some r =>
      { base with
        pkgUrl := some (ARTIFACT_PKG_URL ++ r.name)
        pkgLastModified := some r.time
        pkgIsStale := some (isStale now r.time) }
  let a2 :=
    match findRow imgRows arch with
    | none => a1
    | some r =>
      { a1 with
        imgUrl := some (ARTIFACT_IMG_URL ++ r.name)
        imgLastModified := some r.time
        imgIsStale := some (isStale now r.time) }
  match a2.pkgUrl with
  | none => Except.ok a2
  | some pu =>
    match o.repoToml (pu ++ "repo.toml") with
    | Except.error e => Except.error e
    | Except.ok p =>
      Except.ok
        { a2 with
          repositoryPath := some (pu ++ "repo.toml")
          repository := some ⟨p.packages.getD [], p.outdated_packages.getD []⟩
          packages := some (cps.map (fetchPkgEntry o.pkgToml pu)) }

/-- `fetchArtifactStatus`: download both listings, build every platform's
record, and join.  The whole body sits in one `try`/`catch` that returns an
empty array on any failure — a failed listing download or a rejected
platform promise (a failed `repo.toml` fetch) empties the entire result.
The final `results.filter(p => p !== null)` is the identity, since the
callback never returns `null`. -/
def fetchArtifactStatus (o : ArtifactOracle) (now : Int)
    (gitlab : List ProjectInfo) : List ArtifactInfo :=
  match o.pkgIndex with
  | Except.error _ => []
  | Except.ok pkgRows =>
    match o.imgIndex with
    | Except.error _ => []
    | Except.ok imgRows =>
      match exceptMapList (buildArch o now (corePkgs gitlab) pkgRows imgRows)
          ARTIFACTS_TO_TRACK with
      | Except.error _ => []
      | Except.ok results => results

/-! ## HTTP handler and cache (app module) -/

/-- The module-level mutable cache: `cachedGitlabData`, `cachedArtifactData`,
`lastCacheTime`. -/
structure CacheState where
  cachedGitlabData : Option (List ProjectInfo)
  cachedArtifactData : Option (List ArtifactInfo)
  lastCacheTime : Int
deriving Repr, DecidableEq

/-- The three responses the handler can produce.  `page` abstracts the
`generateHtml` output by the data it renders; `serverError` is the 500
branch of the handler's `catch`, which is unreachable here because both
fetchers catch their own errors internally (the C3 analysis). -/
inductive ServerResponse where
  | notFound
  | page (gitlab : List ProjectInfo) (artifact : List ArtifactInfo)
  | serverError
deriving Repr, DecidableEq

/-- The cache-validity test:
`cachedGitlabData && cachedArtifactData && (now - lastCacheTime < CACHE_DURATION_MS)`
(arrays are always truthy in JS, so presence is `isSome`). -/
def freshCache (s : CacheState) (now : Int) : Bool :=
  s.cachedGitlabData.isSome && s.cachedArtifactData.isSome
    && decide (now - s.lastCacheTime < CACHE_DURATION_MS)

/-- The `serve` fetch handler: 404 for any path other than `/`; otherwise
serve from the cache when fresh, else run one refresh cycle and overwrite
all three cache fields.  The returned `Nat` counts refresh cycles (hence
network fetch activity): `0` when served from cache, `1` otherwise. -/
def handleFetch (now : Int) (go : String → ProjectFetchResult)
    (ao : ArtifactOracle) (pathname : String) (s : CacheState) :
    CacheState × ServerResponse × Nat :=
  if pathname ≠ "/" then
    (s, ServerResponse.notFound, 0)
  else if freshCache s now then
    (s, ServerResponse.page (s.cachedGitlabData.getD []) (s.cachedArtifactData.getD []), 0)
  else
    let g := fetchGitLabData go
    let a := fetchArtifactStatus ao now g
    (⟨some g, some a, now⟩, ServerResponse.page g a, 1)

/-! ## Reconciliation classification (view module) -/

/-- JS `a || d` for an optional string `a`: `undefined` and the empty string
are falsy. -/
def jsStringOr (o : Option String) (d : String) : String :=
  match o with
  | none => d
  | some s => if s = "" then d else s

/-- The pending test of the classification ternary:
`x.toml?.time_identifier && ((Date.now() - new Date(...).getTime()) <
1000 * 60 * 60 * ARTIFACT_STALE_HOURS)`.  An absent descriptor or a falsy
(empty or unparseable) publish time short-circuits to false. -/
def pendingCheck (now : Int) (toml : Option PackageToml) : Bool :=
  match toml with
  | none => false
  | some t =>
    match t.time_identifier with
    | none => false
    | some ts => decide (now - ts < MS_PER_HOUR * ARTIFACT_STALE_HOURS)

/-- The css class attached to one package item in `generateHtml`:
`pkg_commit == rpo_commit ? 'latest' : (x.toml?.time_identifier && (now -
publishedAt < threshold) ? 'pending' : 'outdated')`, with
`pkg_commit = x.toml?.source_identifier.substring(0, 7) || '-'` and
`rpo_commit = x.project.commit?.id.substring(0, 7) || '-'`. -/
def itemClass (now : Int) (toml : Option PackageToml) (commit : Option Commit) : String :=
  let pkg_commit := jsStringOr (toml.map (fun t => t.source_identifier.take 7)) "-"
  let rpo_commit := jsStringOr (commit.map (fun c => c.id.take 7)) "-"
  if pkg_commit == rpo_commit then "latest"
  else if pendingCheck now toml then "pending"
  else "outdated"

/-- The specification's three-way synchronization state. -/
inductive SyncState where
  | synced
  | pending
  | outdated
deriving Repr, DecidableEq

/-- How each synchronization state is rendered as a css class by the view. -/
def classOf : SyncState → String
  | SyncState.synced => "latest"
  | SyncState.pending => "pending"
  | SyncState.outdated => "outdated"

/-- The display truncation used on both sides of the comparison: first 7
characters of the hash, with an absent value — or an empty truncation,
which is falsy in JS — becoming the placeholder `-`. -/
def displayTrunc (o : Option String) : String :=
  match o with
  | none => "-"
  | some s => if s.take 7 = "" then "-" else s.take 7

/-- The specification's pipeline-state enumeration, recovered from a raw
status string the way `getStatusBadge` classifies it (its `switch` on the
lowercased status, defaulting to the grey unknown badge). -/
inductive PipelineState where
  | success
  | failed
  | running
  | pending
  | canceled
  | unknown
deriving Repr, DecidableEq

/-- JS `status.toLowerCase()` for the ASCII status strings involved. -/
def jsToLower (s : String) : String :=
  ⟨s.data.map Char.toLower⟩

/-- Classification of a status string by `getStatusBadge`'s `switch`. -/
def pipelineStateOf (status : String) : PipelineState :=
  if jsToLower status = "success" then PipelineState.success
  else if jsToLower status = "failed" then PipelineState.failed
  else if jsToLower status = "running" then PipelineState.running
  else if jsToLower status = "pending" then PipelineState.pending
  else if jsToLower status = "canceled" then PipelineState.canceled
  else PipelineState.unknown

/-! ## Sample data for witnesses and counterexamples -/

/-- Oracle under which every project lookup fails. -/
def noProjects : String → ProjectFetchResult :=
  fun _ => ProjectFetchResult.failure

/-- Oracle under which every artifact-side download fails. -/
def failingArtifactOracle : ArtifactOracle :=
  { pkgIndex := Except.error "unreachable"
    imgIndex := Except.error "unreachable"
    repoToml := fun _ => Except.error "unreachable"
    pkgToml := fun _ => none }

/-- A parsed `repo.toml` with both tables missing. -/
def sampleRepo : ParsedRepoToml := ⟨none, none⟩

/-- A directory listing with one row per tracked platform. -/
def sampleRows : List IndexRow :=
  [⟨"x86_64/", 0⟩, ⟨"aarch64/", 0⟩, ⟨"i586/", 0⟩, ⟨"riscv64gc/", 0⟩]

/-- Oracle under which both listings succeed with `sampleRows`, every
`repo.toml` parses to `sampleRepo`, and every package descriptor is absent. -/
def okArtifactOracle : ArtifactOracle :=
  { pkgIndex := Except.ok sampleRows
    imgIndex := Except.ok sampleRows
    repoToml := fun _ => Except.ok sampleRepo
    pkgToml := fun _ => none }

/-- A project-metadata response used in witnesses. -/
def sampleMeta : ProjectMeta :=
  ⟨"42", "Redox OS / redox", "https://gitlab.redox-os.org/redox-os/redox"⟩

/-! ## Helper lemmas -/

/-- A successful per-project fetch reports the tracked path it was given. -/
theorem fetchProject_path (o : String → ProjectFetchResult) (t : TrackedProject)
    (pi : ProjectInfo) (h : fetchProject o t = some pi) : pi.path = t.path := by
  unfold fetchProject at h
  cases ho : o t.path <;> rw [ho] at h
  · exact absurd h (by simp)
  · injection h with h'
    subst h'
    rfl

/-- `fetchProject` only looks at the oracle's answer for its own path. -/
theorem fetchProject_congr (o o' : String → ProjectFetchResult) (t : TrackedProject)
    (h : o t.path = o' t.path) : fetchProject o t = fetchProject o' t := by
  unfold fetchProject
  rw [h]

/-- The first element satisfying a predicate is the head of the filtered list. -/
theorem find_eq_head_filter (p : α → Bool) (l : List α) :
    l.find? p = (l.filter p).head? := by
  induction l with
  | nil => rfl
  | cons a l ih =>
    cases h : p a with
    | true =>
      rw [List.find?_cons_of_pos _ h, List.filter_cons_of_pos h]
      rfl
    | false =>
      rw [List.find?_cons_of_neg _ (by simp [h]), List.filter_cons_of_neg (by simp [h])]
      exact ih

/-- `startsWithLit` is the literal character-prefix relation. -/
theorem startsWithLit_iff (s p : String) :
    startsWithLit s p = true ↔ ∃ rest, p.data ++ rest = s.data := by
  rw [startsWithLit, List.isPrefixOf_iff_prefix]
  exact Iff.rfl

/-- Making the oracle fail at path `q` removes exactly the entries whose
path is `q` from the fetched list and leaves all others unchanged. -/
theorem filterMap_drop_path (go : String → ProjectFetchResult) (q : String)
    (l : List TrackedProject) :
    l.filterMap (fetchProject (fun p => if p = q then ProjectFetchResult.failure else go p))
      = (l.filterMap (fetchProject go)).filter (fun pi => pi.path != q) := by
  induction l with
  | nil => rfl
  | cons t l ih =>
    by_cases hq : t.path = q
    · have h1 : fetchProject (fun p => if p = q then ProjectFetchResult.failure else go p) t
          = none := by
        unfold fetchProject
        simp [hq]
      rw [List.filterMap_cons, h1, ih]
      cases h2 : fetchProject go t with
      | none => rw [List.filterMap_cons, h2]
      | some pi =>
        rw [List.filterMap_cons, h2, List.filter_cons]
        have h3 : (pi.path != q) = false := by
          simp [fetchProject_path go t pi h2, hq]
        rw [h3]
        simp
    · have h1 : fetchProject (fun p => if p = q then ProjectFetchResult.failure else go p) t
          = fetchProject go t := by
        apply fetchProject_congr
        simp [hq]
      rw [List.filterMap_cons, List.filterMap_cons, h1, ih]
      cases h2 : fetchProject go t with
      | none => rfl
      | some pi =>
        have h3 : (pi.path != q) = true := by
          simp [fetchProject_path go t pi h2, hq]
        simp [List.filter_cons, h3]

/-- The fetched paths are the configured paths of the resolving projects,
in configuration order. -/
theorem filterMap_paths (o : String → ProjectFetchResult) (l : List TrackedProject) :
    (l.filterMap (fetchProject o)).map (fun pi => pi.path)
      = (l.filter (fun t => resolves o t)).map (fun t => t.path) := by
  induction l with
  | nil => rfl
  | cons t l ih =>
    rw [List.filterMap_cons, List.filter_cons]
    cases ho : o t.path with
    | failure =>
      have h1 : fetchProject o t = none := by
        unfold fetchProject
        rw [ho]
      have h2 : resolves o t = false := by
        unfold resolves
        rw [ho]
      rw [h1, h2]
      simpa using ih
    | success meta pl cm =>
      have h2 : resolves o t = true := by
        unfold resolves
        rw [ho]
      rw [h2]
      unfold fetchProject
      rw [ho]
      simpa using ih

/-- The staleness test over rational hours agrees with the integer
millisecond comparison against the threshold. -/
theorem isStale_iff (now t : Int) :
    isStale now t = true ↔ ARTIFACT_STALE_HOURS * MS_PER_HOUR < now - t := by
  simp only [isStale, hoursDiff, decide_eq_true_eq, gt_iff_lt, ARTIFACT_STALE_HOURS,
    MS_PER_HOUR]
  rw [lt_div_iff₀ (by norm_num)]
  constructor
  · intro h
    exact_mod_cast h
  · intro h
    exact_mod_cast h

/-- The commit-display truncation in the view is `displayTrunc`. -/
theorem jsStringOr_take_eq (o : Option String) :
    jsStringOr (o.map (fun s => s.take 7)) "-" = displayTrunc o := by
  cases o <;> simp [jsStringOr, displayTrunc]

/-- When every `repo.toml` fetch succeeds, each platform's promise resolves
and the produced record carries the platform name. -/
theorem buildArch_ok (o : ArtifactOracle) (now : Int) (cps : List CorePkg)
    (pkgRows imgRows : List IndexRow) (arch : String)
    (hr : ∀ u, ∃ r, o.repoToml u = Except.ok r) :
    ∃ a, buildArch o now cps pkgRows imgRows arch = Except.ok a ∧ a.name = arch := by
  unfold buildArch
  cases hp : findRow pkgRows arch with
  | none =>
    cases hi : findRow imgRows arch <;> simp
  | some r =>
    obtain ⟨rt, hrt⟩ := hr (ARTIFACT_PKG_URL ++ r.name ++ "repo.toml")
    cases hi : findRow imgRows arch <;> simp [hrt]

/-! ## Claim theorems -/

/-- C6: the artifact index parser scans rows in document order and returns
the first row whose entry name starts with the platform token as a literal
string prefix (no regex interpretation of the token), or none when no row
matches; a selected entry is stale exactly when now minus its last-modified
time strictly exceeds the 24-hour threshold, so at threshold 24h an entry
modified 23h ago is not stale and one modified 25h ago is stale.  The final
two conjuncts instantiate the spec's row example and show that a regex
metacharacter in the token is matched literally. -/
theorem c6_index_selection_staleness (rows : List IndexRow) (tok s p : String)
    (now t : Int) :
    findRow rows tok = (rows.filter (fun r => startsWithLit r.name tok)).head?
    ∧ (startsWithLit s p = true ↔ ∃ rest, p.data ++ rest = s.data)
    ∧ (isStale now t = true ↔ ARTIFACT_STALE_HOURS * MS_PER_HOUR < now - t)
    ∧ isStale now (now - 23 * MS_PER_HOUR) = false
    ∧ isStale now (now - 25 * MS_PER_HOUR) = true
    ∧ findRow [⟨"x86_64-2024-01-01 00:00", 0⟩, ⟨"aarch64-2024-01-01 00:00", 0⟩] "x86_64"
        = some ⟨"x86_64-2024-01-01 00:00", 0⟩
    ∧ findRow [⟨"axb", 0⟩] "a.b" = none := by
  refine ⟨find_eq_head_filter _ rows, startsWithLit_iff s p, isStale_iff now t,
    ?_, ?_, by decide, by decide⟩
  · simp only [isStale, hoursDiff, MS_PER_HOUR, decide_eq_false_iff_not, gt_iff_lt, not_lt]
    rw [div_le_iff₀ (by norm_num)]
    push_cast
    norm_num [ARTIFACT_STALE_HOURS]
  · simp only [isStale, hoursDiff, MS_PER_HOUR, decide_eq_true_eq, gt_iff_lt]
    rw [lt_div_iff₀ (by norm_num)]
    push_cast
    norm_num [ARTIFACT_STALE_HOURS]

/-- C8: when the package descriptor is absent and the repository's latest
commit is also absent, both sides of the comparison truncate to the
placeholder `-`, so the item is classified synced and rendered with the
`latest` css class rather than `outdated`. -/
theorem c8_double_placeholder_synced (now : Int) :
    displayTrunc none = "-"
    ∧ itemClass now none none = classOf SyncState.synced := by
  constructor
  · rfl
  · rfl

/-- C1 counterexample: the claim says an absent descriptor always yields
syncState `outdated`; but with an absent descriptor and an absent latest
commit both sides truncate to `-`, and the code classifies the package as
synced (`latest`), not `outdated`. -/
theorem c1_absent_descriptor_counterexample :
    itemClass 0 none none = classOf SyncState.synced
    ∧ classOf SyncState.synced ≠ classOf SyncState.outdated := by
  constructor
  · rfl
  · decide

/-- The pending test succeeds exactly for a present descriptor whose
parsed publish time lies strictly inside the staleness window. -/
theorem pendingCheck_eq_true (now : Int) (toml : Option PackageToml) :
    pendingCheck now toml = true
    ↔ ∃ t ts, toml = some t ∧ t.time_identifier = some ts
        ∧ now - ts < MS_PER_HOUR * ARTIFACT_STALE_HOURS := by
  cases toml with
  | none => simp [pendingCheck]
  | some t =>
    cases hts : t.time_identifier <;> simp [pendingCheck, hts]

/-- Negated form of `pendingCheck_eq_true`. -/
theorem pendingCheck_eq_false (now : Int) (toml : Option PackageToml) :
    pendingCheck now toml = false
    ↔ ¬ ∃ t ts, toml = some t ∧ t.time_identifier = some ts
        ∧ now - ts < MS_PER_HOUR * ARTIFACT_STALE_HOURS := by
  rw [← Bool.not_eq_true]
  exact not_congr (pendingCheck_eq_true now toml)

/-- Case analysis of the three-way class ternary. -/
theorem classString_cases (c d : Bool) :
    ((if c then "latest" else if d then "pending" else "outdated") = "latest" ↔ c = true)
    ∧ ((if c then "latest" else if d then "pending" else "outdated") = "pending"
        ↔ c = false ∧ d = true)
    ∧ ((if c then "latest" else if d then "pending" else "outdated") = "outdated"
        ↔ c = false ∧ d = false) := by
  cases c <;> cases d <;> refine ⟨?_, ?_, ?_⟩ <;> simp

/-- C1 amended: classification is by comparison of display truncations on
both sides, where an absent descriptor, an absent commit, or an empty hash
all truncate to the placeholder `-` (so an absent descriptor with an absent
commit is synced); when the truncations differ, the package is pending iff
the descriptor is present with a parseable publish time strictly inside the
staleness window, and outdated otherwise. -/
theorem c1_reconciliation_amended (now : Int) (toml : Option PackageToml)
    (commit : Option Commit) :
    (itemClass now toml commit = classOf SyncState.synced
      ↔ displayTrunc (toml.map (fun t => t.source_identifier))
          = displayTrunc (commit.map (fun c => c.id)))
    ∧ (itemClass now toml commit = classOf SyncState.pending
      ↔ displayTrunc (toml.map (fun t => t.source_identifier))
          ≠ displayTrunc (commit.map (fun c => c.id))
        ∧ ∃ t ts, toml = some t ∧ t.time_identifier = some ts
            ∧ now - ts < MS_PER_HOUR * ARTIFACT_STALE_HOURS)
    ∧ (itemClass now toml commit = classOf SyncState.outdated
      ↔ displayTrunc (toml.map (fun t => t.source_identifier))
          ≠ displayTrunc (commit.map (fun c => c.id))
        ∧ ¬ ∃ t ts, toml = some t ∧ t.time_identifier = some ts
            ∧ now - ts < MS_PER_HOUR * ARTIFACT_STALE_HOURS) := by
  have hp : jsStringOr (toml.map (fun t => t.source_identifier.take 7)) "-"
      = displayTrunc (toml.map (fun t => t.source_identifier)) := by
    cases toml <;> simp [jsStringOr, displayTrunc]
  have hc : jsStringOr (commit.map (fun c => c.id.take 7)) "-"
      = displayTrunc (commit.map (fun c => c.id)) := by
    cases commit <;> simp [jsStringOr, displayTrunc]
  obtain ⟨h1, h2, h3⟩ := classString_cases
    (displayTrunc (toml.map (fun t => t.source_identifier))
      == displayTrunc (commit.map (fun c => c.id)))
    (pendingCheck now toml)
  simp only [itemClass, hp, hc, classOf]
  refine ⟨?_, ?_, ?_⟩
  · rw [h1, beq_iff_eq]
  · rw [h2, beq_eq_false_iff_ne, pendingCheck_eq_true]
  · rw [h3, beq_eq_false_iff_ne, pendingCheck_eq_false]

/-- C9: the repository sequence returned by a refresh cycle consists of the
configured tracked repositories that resolved, in configuration order, with
each repository appearing at most once. -/
theorem c9_repository_order (o : String → ProjectFetchResult) :
    (fetchGitLabData o).map (fun pi => pi.path)
      = (PROJECTS_TO_TRACK.filter (fun t => resolves o t)).map (fun t => t.path)
    ∧ ((fetchGitLabData o).map (fun pi => pi.path)).Nodup := by
  have hpaths := filterMap_paths o PROJECTS_TO_TRACK
  refine ⟨hpaths, ?_⟩
  rw [show fetchGitLabData o = PROJECTS_TO_TRACK.filterMap (fetchProject o) from rfl, hpaths]
  have hnd : (PROJECTS_TO_TRACK.map (fun t => t.path)).Nodup := by decide
  exact hnd.sublist ((List.filter_sublist PROJECTS_TO_TRACK).map (fun t => t.path))

/-- C4: failures are isolated.  Making the project oracle fail at one path
removes exactly that repository from the fetched list (every other entry is
unchanged and in place); making one package-descriptor URL fail keeps every
package entry present (same names, same order), leaves every sibling entry
with a different descriptor URL identical, and turns only the failing
entry's descriptor absent. -/
theorem c4_failure_isolation (go : String → ProjectFetchResult) (q : String)
    (po : String → Option PackageToml) (u pkgUrl : String) (cps : List CorePkg) :
    fetchGitLabData (fun p => if p = q then ProjectFetchResult.failure else go p)
      = (fetchGitLabData go).filter (fun pi => pi.path != q)
    ∧ ((fetchGitLabData (fun p => if p = q then ProjectFetchResult.failure else go p)).map
        (fun pi => pi.path)).all (fun x => x != q) = true
    ∧ (cps.map (fetchPkgEntry (fun v => if v = u then none else po v) pkgUrl)).map
        (fun e => e.name) = cps.map (fun c => c.name)
    ∧ (cps.filter (fun c => (pkgUrl ++ c.name ++ ".toml") != u)).map
        (fetchPkgEntry (fun v => if v = u then none else po v) pkgUrl)
      = (cps.filter (fun c => (pkgUrl ++ c.name ++ ".toml") != u)).map (fetchPkgEntry po pkgUrl)
    ∧ ((cps.map (fetchPkgEntry (fun v => if v = u then none else po v) pkgUrl)).filter
        (fun e => e.toml_path == u)).all (fun e => e.toml.isNone) = true := by
  have hiso := filterMap_drop_path go q PROJECTS_TO_TRACK
  refine ⟨hiso, ?_, ?_, ?_, ?_⟩
  · rw [show fetchGitLabData (fun p => if p = q then ProjectFetchResult.failure else go p)
        = PROJECTS_TO_TRACK.filterMap
            (fetchProject (fun p => if p = q then ProjectFetchResult.failure else go p))
        from rfl, hiso]
    simp only [List.all_eq_true, List.mem_map, List.mem_filter]
    rintro x ⟨pi, ⟨-, hpi⟩, rfl⟩
    exact hpi
  · simp [List.map_map, Function.comp_def, fetchPkgEntry]
  · apply List.map_congr_left
    intro c hc
    rw [List.mem_filter] at hc
    have hne : pkgUrl ++ c.name ++ ".toml" ≠ u := by simpa using hc.2
    simp [fetchPkgEntry, hne]
  · simp only [List.all_eq_true, List.mem_filter, List.mem_map]
    rintro e ⟨⟨c, hc, rfl⟩, he⟩
    have hu : pkgUrl ++ c.name ++ ".toml" = u := by
      simpa [fetchPkgEntry] using he
    simp [fetchPkgEntry, hu]

/-- C5: for a tracked repository whose project lookup succeeds, an absent
latest pipeline yields the `no-pipelines` status (classified unknown by the
badge switch) and an absent pipeline URL; an absent latest commit yields an
absent `commit` field. -/
theorem c5_absent_pipeline_commit (o1 o2 : String → ProjectFetchResult)
    (t : TrackedProject) (m1 m2 : ProjectMeta) (cm : Option Commit) (pl : Option Pipeline)
    (h1 : o1 t.path = ProjectFetchResult.success m1 none cm)
    (h2 : o2 t.path = ProjectFetchResult.success m2 pl none) :
    (fetchProject o1 t).map (fun pi => pi.status) = some "no-pipelines"
    ∧ (fetchProject o1 t).map (fun pi => pipelineStateOf pi.status)
        = some PipelineState.unknown
    ∧ (fetchProject o1 t).map (fun pi => pi.pipelineUrl) = some none
    ∧ (fetchProject o2 t).map (fun pi => pi.commit) = some none := by
  refine ⟨?_, ?_, ?_, ?_⟩
  · simp [fetchProject, h1]
  · simp only [fetchProject, h1, Option.map_some']
    decide
  · simp [fetchProject, h1]
  · simp [fetchProject, h2]

/-- C5 witness at a concrete oracle with absent pipeline and absent commit. -/
theorem c5_absent_pipeline_commit_witness :
    (fetchProject (fun _ => ProjectFetchResult.success sampleMeta none none)
        ⟨"redox-os/redox", "master", []⟩).map (fun pi => pi.status) = some "no-pipelines"
    ∧ (fetchProject (fun _ => ProjectFetchResult.success sampleMeta none none)
        ⟨"redox-os/redox", "master", []⟩).map (fun pi => pipelineStateOf pi.status)
        = some PipelineState.unknown
    ∧ (fetchProject (fun _ => ProjectFetchResult.success sampleMeta none none)
        ⟨"redox-os/redox", "master", []⟩).map (fun pi => pi.pipelineUrl) = some none
    ∧ (fetchProject (fun _ => ProjectFetchResult.success sampleMeta none none)
        ⟨"redox-os/redox", "master", []⟩).map (fun pi => pi.commit) = some none :=
  c5_absent_pipeline_commit
    (fun _ => ProjectFetchResult.success sampleMeta none none)
    (fun _ => ProjectFetchResult.success sampleMeta none none)
    ⟨"redox-os/redox", "master", []⟩ sampleMeta sampleMeta none none rfl rfl

/-- C2: while the cache holds a snapshot whose age is strictly below the
TTL, requests return exactly the cached data with zero refresh cycles, and
the cache state is unchanged, so a second in-window request returns the
identical snapshot; a request against an expired or empty cache runs
exactly one refresh cycle and stores the fetched data with the cache
timestamp set to the call time. -/
theorem c2_snapshot_cache (go : String → ProjectFetchResult) (ao : ArtifactOracle)
    (g : List ProjectInfo) (a : List ArtifactInfo) (t0 now1 now2 now3 : Int)
    (s2 : CacheState)
    (h1 : now1 - t0 < CACHE_DURATION_MS) (h2 : now2 - t0 < CACHE_DURATION_MS)
    (h3 : freshCache s2 now3 = false) :
    handleFetch now1 go ao "/" ⟨some g, some a, t0⟩
      = (⟨some g, some a, t0⟩, ServerResponse.page g a, 0)
    ∧ handleFetch now2 go ao "/" (handleFetch now1 go ao "/" ⟨some g, some a, t0⟩).1
      = (⟨some g, some a, t0⟩, ServerResponse.page g a, 0)
    ∧ handleFetch now3 go ao "/" s2
      = (⟨some (fetchGitLabData go),
            some (fetchArtifactStatus ao now3 (fetchGitLabData go)), now3⟩,
          ServerResponse.page (fetchGitLabData go)
            (fetchArtifactStatus ao now3 (fetchGitLabData go)), 1) := by
  have hf1 : freshCache ⟨some g, some a, t0⟩ now1 = true := by
    simp [freshCache, h1]
  have hf2 : freshCache ⟨some g, some a, t0⟩ now2 = true := by
    simp [freshCache, h2]
  refine ⟨?_, ?_, ?_⟩
  · simp [handleFetch, hf1]
  · simp [handleFetch, hf1, hf2]
  · simp [handleFetch, h3]

/-- C2 witness: fresh at times 1 and 2 for a cache stamped 0, expired for an
empty cache. -/
theorem c2_snapshot_cache_witness :
    handleFetch 1 noProjects failingArtifactOracle "/" ⟨some [], some [], 0⟩
      = (⟨some [], some [], 0⟩, ServerResponse.page [] [], 0)
    ∧ handleFetch 2 noProjects failingArtifactOracle "/"
        (handleFetch 1 noProjects failingArtifactOracle "/" ⟨some [], some [], 0⟩).1
      = (⟨some [], some [], 0⟩, ServerResponse.page [] [], 0)
    ∧ handleFetch 3 noProjects failingArtifactOracle "/" ⟨none, none, 0⟩
      = (⟨some (fetchGitLabData noProjects),
            some (fetchArtifactStatus failingArtifactOracle 3 (fetchGitLabData noProjects)), 3⟩,
          ServerResponse.page (fetchGitLabData noProjects)
            (fetchArtifactStatus failingArtifactOracle 3 (fetchGitLabData noProjects)), 1) :=
  c2_snapshot_cache noProjects failingArtifactOracle [] [] 0 1 2 3 ⟨none, none, 0⟩
    (by decide) (by decide) (by decide)

/-- C10: a request for any path other than `/` gets the 404 response, runs
no refresh cycle, and leaves every cache field unchanged. -/
theorem c10_not_found_frame (now : Int) (go : String → ProjectFetchResult)
    (ao : ArtifactOracle) (pathname : String) (s : CacheState)
    (h : pathname ≠ "/") :
    handleFetch now go ao pathname s = (s, ServerResponse.notFound, 0) := by
  simp [handleFetch, h]

/-- C10 witness at the concrete path `/about`. -/
theorem c10_not_found_frame_witness :
    handleFetch 0 noProjects failingArtifactOracle "/about" ⟨none, none, 0⟩
      = (⟨none, none, 0⟩, ServerResponse.notFound, 0) :=
  c10_not_found_frame 0 noProjects failingArtifactOracle "/about" ⟨none, none, 0⟩
    (by decide)

/-- C3 counterexample: with an empty cache and every artifact-side download
and every repository fetch failing, the refresh still succeeds — the caller
receives a rendered page (not the error response) and the cache fields are
all overwritten (with empty lists and the new timestamp).  This contradicts
the claim that such a refresh surfaces an explicit error and leaves the
cache untouched: the fetchers catch their own errors and return empty data. -/
theorem c3_failed_refresh_counterexample :
    handleFetch 5 noProjects failingArtifactOracle "/" ⟨none, none, 0⟩
      = (⟨some [], some [], 5⟩, ServerResponse.page [] [], 1)
    ∧ ServerResponse.page ([] : List ProjectInfo) ([] : List ArtifactInfo)
        ≠ ServerResponse.serverError
    ∧ (⟨some [], some [], 5⟩ : CacheState) ≠ ⟨none, none, 0⟩ := by
  refine ⟨by decide, by decide, by decide⟩

/-- C3 amended: unrecoverable errors in the artifact-index fetch and in the
per-repository fetches are caught inside the fetchers, so a refresh against
a non-fresh cache completes successfully with empty data: the handler
returns a rendered page, overwrites both cache fields with empty lists, and
stamps the cache with the call time; the handler's 500 error branch is not
taken. -/
theorem c3_failed_refresh_amended (now : Int) (s : CacheState)
    (h : freshCache s now = false) :
    handleFetch now noProjects failingArtifactOracle "/" s
      = (⟨some [], some [], now⟩, ServerResponse.page [] [], 1) := by
  have hg : fetchGitLabData noProjects = [] := rfl
  have ha : fetchArtifactStatus failingArtifactOracle now [] = [] := rfl
  simp [handleFetch, h, hg, ha]

/-- C3 amended witness at an empty cache and call time 7. -/
theorem c3_failed_refresh_amended_witness :
    handleFetch 7 noProjects failingArtifactOracle "/" ⟨none, none, 0⟩
      = (⟨some [], some [], 7⟩, ServerResponse.page [] [], 1) :=
  c3_failed_refresh_amended 7 ⟨none, none, 0⟩ (by decide)

/-- C7 counterexample: the directory listing is downloaded once and shared
by all platforms, so a listing failure never omits just one platform.  With
the working oracle all four platforms are present; failing the (single)
package-listing download empties the whole artifact list, omitting every
platform — in particular `aarch64` is affected by a fetch failure the claim
says concerns only another platform's snapshot. -/
theorem c7_platform_omission_counterexample :
    fetchArtifactStatus failingArtifactOracle 0 [] = []
    ∧ (fetchArtifactStatus okArtifactOracle 0 []).map (fun a => a.name)
        = ["x86_64", "aarch64", "i586", "riscv64gc"] := by
  refine ⟨rfl, by decide⟩

/-- C7 amended: the listings are fetched once for all platforms, so a
listing failure (of either the package or the image listing) empties the
entire artifact list — every platform's snapshot is omitted together; when
both listings succeed and the repository descriptors parse, every tracked
platform contributes exactly one record, in configuration order. -/
theorem c7_platform_omission_amended (o : ArtifactOracle) (now : Int)
    (gitlab : List ProjectInfo) (prows irows : List IndexRow)
    (h1 : o.pkgIndex = Except.ok prows) (h2 : o.imgIndex = Except.ok irows)
    (hr : ∀ u, ∃ r, o.repoToml u = Except.ok r) :
    (fetchArtifactStatus o now gitlab).map (fun a => a.name) = ARTIFACTS_TO_TRACK
    ∧ fetchArtifactStatus { o with pkgIndex := Except.error "down" } now gitlab = []
    ∧ fetchArtifactStatus { o with imgIndex := Except.error "down" } now gitlab = [] := by
  obtain ⟨a1, e1, n1⟩ := buildArch_ok o now (corePkgs gitlab) prows irows "x86_64" hr
  obtain ⟨a2, e2, n2⟩ := buildArch_ok o now (corePkgs gitlab) prows irows "aarch64" hr
  obtain ⟨a3, e3, n3⟩ := buildArch_ok o now (corePkgs gitlab) prows irows "i586" hr
  obtain ⟨a4, e4, n4⟩ := buildArch_ok o now (corePkgs gitlab) prows irows "riscv64gc" hr
  refine ⟨?_, ?_, ?_⟩
  · simp only [fetchArtifactStatus, h1, h2, ARTIFACTS_TO_TRACK, exceptMapList,
      e1, e2, e3, e4]
    simp [n1, n2, n3, n4, ARTIFACTS_TO_TRACK]
  · simp [fetchArtifactStatus]
  · simp [fetchArtifactStatus, h1]

/-- C7 amended witness at the concrete sample oracle. -/
theorem c7_platform_omission_amended_witness :
    (fetchArtifactStatus okArtifactOracle 0 []).map (fun a => a.name) = ARTIFACTS_TO_TRACK
    ∧ fetchArtifactStatus { okArtifactOracle with pkgIndex := Except.error "down" } 0 [] = []
    ∧ fetchArtifactStatus { okArtifactOracle with imgIndex := Except.error "down" } 0 [] = [] :=
  c7_platform_omission_amended okArtifactOracle 0 [] sampleRows sampleRows rfl rfl
    (fun _ => ⟨sampleRepo, rfl⟩)
